import Mathlib

/-!
# Verification of the wikicast generation pipeline

A shallow embedding, in Lean, of the core backend logic of the wikicast
repository: the script validator and duration estimator
(`backend/src/services/tts.ts`), the TTS retry wrapper (same file), the
audio stitcher (`backend/src/services/audioStitcher.ts`) and the podcast
orchestrator (`backend/src/services/podcastOrchestrator.ts`, whose text
appears in `backend/src/prompts/podcast.ts` in this snapshot).

Pure computations are translated function by function.  Asynchronous
I/O-bound code is embedded by passing the outcome of each external call
(HTTP fetch, LLM completion, per-batch synthesis, ffmpeg run) as an
explicit `Except` value, and by recording filesystem writes and progress
callbacks as data in the result instead of performing them.  JavaScript
`number` arithmetic on integers is modelled with `Nat`/`Int`; the one
floating-point expression (`Math.round((totalWords / 150) * 60)`) is
modelled exactly, see `roundWordsToSeconds`.
-/

set_option maxHeartbeats 1000000

namespace Wikicast

/-! ## Data model: `ScriptLine` -/

/-- A script line (`ScriptLine` in `backend/src/prompts/podcast.ts`):
1-based sequence index, speaker, spoken text, and section tag.  The
TypeScript `speaker`/`section` union types are compile-time only — the
values arrive from parsed JSON and `validateScript` re-checks the speaker
at runtime — so both are embedded as strings.  (`section` is a Lean
keyword, hence the field name `sectionTag`.) -/
structure ScriptLine where
  index : Nat
  speaker : String
  text : String
  sectionTag : String
  deriving Repr, DecidableEq

/-! ## The script validator (`validateScript` in `backend/src/services/tts.ts`) -/

/-- The five distinct rejections `validateScript` can throw, in source
order: "Script too short", "Missing required section", "Invalid speaker",
"Sections out of order at line …", "Too many consecutive lines by … at
line …".  The payloads are the data interpolated into each message. -/
inductive ValidationError where
  | tooShort : ValidationError
  | missingSection : String → ValidationError
  | invalidSpeaker : String → ValidationError
  | sectionsOutOfOrder : Nat → ValidationError
  | tooManyConsecutive : String → Nat → ValidationError
  deriving Repr, DecidableEq

/-- The canonical 5-tag ordering, the source's `requiredSections` and
`sectionOrder` arrays (they list the same strings in the same order). -/
def requiredSections : List String :=
  ["greeting", "explanation", "clarification", "qna", "signoff"]

/-- JavaScript `Array.prototype.indexOf` on a string array: the first
index holding `s`, and `-1` when `s` is absent. -/
def jsIndexOf (l : List String) (s : String) : Int :=
  match l with
  | [] => -1
  | a :: rest =>
    if a = s then 0
    else
      let r := jsIndexOf rest s
      if r = -1 then -1 else r + 1

/-- Check 2 of `validateScript`: iterate `requiredSections` in order and
report the first tag that no line carries.  The source builds a `Set` of
the lines' sections and asks `sections.has(section)`; membership in that
set is exactly `lines.any`. -/
def firstMissingSection (lines : List ScriptLine) : List String → Option String
  | [] => none
  | s :: rest =>
    if lines.any (fun l => l.sectionTag = s) then firstMissingSection lines rest
    else some s

/-- Check 3 of `validateScript`: the first speaker value that is neither
`"Nishi"` nor `"Shyam"`.  The source iterates `new Set(lines.map(l =>
l.speaker))`; a JavaScript `Set` iterates in insertion order, so the
first invalid element of the set is the speaker of the first line whose
speaker is invalid, which is what this scan returns. -/
def firstInvalidSpeaker : List ScriptLine → Option String
  | [] => none
  | l :: rest =>
    if l.speaker ≠ "Nishi" ∧ l.speaker ≠ "Shyam" then some l.speaker
    else firstInvalidSpeaker rest

/-- The value `sectionOrder.indexOf(line.section)` from check 4. -/
def sectionPos (l : ScriptLine) : Int :=
  jsIndexOf requiredSections l.sectionTag

/-- The loop of check 4: walking the lines with the running
`lastSectionIndex` (initially `-1`), throw `Sections out of order at line
${line.index}` at the first line whose section position is below the
previous one. -/
def checkSectionOrderFrom (lastIdx : Int) : List ScriptLine → Except ValidationError Unit
  | [] => .ok ()
  | l :: rest =>
    if sectionPos l < lastIdx then .error (.sectionsOutOfOrder l.index)
    else checkSectionOrderFrom (sectionPos l) rest

/-- The loop of check 5, carrying `lastSpeaker`, the current run length
`count`, and the 0-based position `pos` of the next element of the
original list.  When a sixth consecutive line by the same speaker is met
at 0-based position `i`, the source throws `Too many consecutive lines by
${lastSpeaker} at line ${i + 1}`. -/
def checkConsecutiveFrom (lastSpeaker : String) (count : Nat) (pos : Nat) :
    List ScriptLine → Except ValidationError Unit
  | [] => .ok ()
  | l :: rest =>
    if l.speaker = lastSpeaker then
      if count + 1 > 5 then .error (.tooManyConsecutive lastSpeaker (pos + 1))
      else checkConsecutiveFrom lastSpeaker (count + 1) (pos + 1) rest
    else checkConsecutiveFrom l.speaker 1 (pos + 1) rest

/-- Check 5 of `validateScript`: `consecutiveCount = 1`, `lastSpeaker =
lines[0]?.speaker`, then loop from index 1. -/
def checkConsecutive : List ScriptLine → Except ValidationError Unit
  | [] => .ok ()
  | l :: rest => checkConsecutiveFrom l.speaker 1 1 rest

/-- The function `validateScript` (`backend/src/services/tts.ts`): the five checks in
source order, throwing at the first violation.  `throw` becomes
`Except.error`; falling through the whole function becomes `.ok ()`. -/
def validateScript (lines : List ScriptLine) : Except ValidationError Unit :=
  if lines.length < 10 then .error .tooShort
  else
    match firstMissingSection lines requiredSections with
    | some s => .error (.missingSection s)
    | none =>
      match firstInvalidSpeaker lines with
      | some sp => .error (.invalidSpeaker sp)
      | none =>
        match checkSectionOrderFrom (-1) lines with
        | .error e => .error e
        | .ok _ => checkConsecutive lines

/-- Check 1 in isolation. -/
def checkMinLength (lines : List ScriptLine) : Except ValidationError Unit :=
  if lines.length < 10 then .error .tooShort else .ok ()

/-- Check 2 in isolation. -/
def checkSectionsPresent (lines : List ScriptLine) : Except ValidationError Unit :=
  match firstMissingSection lines requiredSections with
  | some s => .error (.missingSection s)
  | none => .ok ()

/-- Check 3 in isolation. -/
def checkSpeakers (lines : List ScriptLine) : Except ValidationError Unit :=
  match firstInvalidSpeaker lines with
  | some sp => .error (.invalidSpeaker sp)
  | none => .ok ()

/-- Check 4 in isolation (`lastSectionIndex` starts at `-1`). -/
def checkSectionOrder (lines : List ScriptLine) : Except ValidationError Unit :=
  checkSectionOrderFrom (-1) lines

/-- The five checks of `validateScript` sequenced with fail-fast `Except`
semantics: a later check runs only when every earlier one succeeded. -/
def runChecksInOrder (lines : List ScriptLine) : Except ValidationError Unit :=
  (checkMinLength lines).bind fun _ =>
  (checkSectionsPresent lines).bind fun _ =>
  (checkSpeakers lines).bind fun _ =>
  (checkSectionOrder lines).bind fun _ =>
  checkConsecutive lines

/-! ## Duration estimation (`calculateDuration` in `backend/src/services/tts.ts`) -/

/-- JavaScript's `\s` character class (ECMAScript WhiteSpace and
LineTerminator code points), as matched by the regex `/\s+/`. -/
def isJsWs (c : Char) : Bool :=
  let n := c.toNat
  n == 32 || n == 9 || n == 10 || n == 11 || n == 12 || n == 13 || n == 160 ||
  n == 5760 || (decide (8192 ≤ n) && decide (n ≤ 8202)) || n == 8232 ||
  n == 8233 || n == 8239 || n == 8287 || n == 12288 || n == 65279

/-- JavaScript `text.split(/\s+/)` on the character list of `text`: the fields
between maximal whitespace runs.  As in JavaScript, a leading whitespace
run yields a leading empty field, a trailing run a trailing empty field,
and the empty string yields the single field `[]` (JS: `[""]`). -/
def splitWsCore : List Char → List (List Char)
  | [] => [[]]
  | c :: cs =>
    if isJsWs c then
      match cs with
      | [] => [[], []]
      | c2 :: _ => if isJsWs c2 then splitWsCore cs else [] :: splitWsCore cs
    else
      match splitWsCore cs with
      | [] => [[c]]
      | f :: fs => (c :: f) :: fs

/-- JavaScript `Math.round((w / 150) * 60)` for an integer word count `w`, modelled
exactly: the value `2w/5` has fractional part a multiple of `1/5`, never
exactly `1/2`, and for any realistic `w` the double-precision evaluation
of `(w / 150) * 60` stays far closer to `2w/5` than the `1/10` gap to the
nearest rounding boundary, so JS `Math.round` (round half up) agrees with
exact rational rounding `⌊2w/5 + 1/2⌋ = ⌊(4w + 5) / 10⌋`. -/
def roundWordsToSeconds (w : Nat) : Nat :=
  (4 * w + 5) / 10

/-- The function `calculateDuration` (`backend/src/services/tts.ts`): per line,
`line.text.split(/\s+/).length`, summed with `reduce`; the estimated
duration is `Math.round((totalWords / 150) * 60)`.  Returns
`(totalWords, estimatedDuration)`. -/
def calculateDuration (lines : List ScriptLine) : Nat × Nat :=
  let totalWords := lines.foldl (fun sum line => sum + (splitWsCore line.text.data).length) 0
  (totalWords, roundWordsToSeconds totalWords)

/-- Spec-side definition (the spec's words, for comparison with the
code): the whitespace-delimited token count of a string, i.e. the number
of maximal runs of non-whitespace characters.  The flag records whether
the previous character was whitespace (or the start of the string). -/
def tokenCountAux : Bool → List Char → Nat
  | _, [] => 0
  | atBoundary, c :: cs =>
    if isJsWs c then tokenCountAux true cs
    else (if atBoundary then 1 else 0) + tokenCountAux false cs

/-- Spec-side definition: whitespace-delimited token count of `s`. -/
def tokenCount (s : String) : Nat :=
  tokenCountAux true s.data

/-- Spec-side definition: token count summed across all line texts. -/
def tokenTotal (lines : List ScriptLine) : Nat :=
  lines.foldl (fun sum line => sum + tokenCount line.text) 0

/-! ## Audio segments and the stitcher (`backend/src/services/audioStitcher.ts`) -/

/-- An audio segment (`AudioSegment` in the backend types): the script
line it renders, the speaker, the path of the rendered bytes, an
estimated duration, format and creation timestamp. -/
structure AudioSegment where
  lineIndex : Nat
  speaker : String
  filePath : String
  durationMs : Nat
  format : String
  generatedAt : String
  deriving Repr, DecidableEq

/-- The comparator `(a, b) => a.lineIndex - b.lineIndex` of
`createConcatFile`, as the ordering it realises. -/
def segLe (a b : AudioSegment) : Prop :=
  a.lineIndex ≤ b.lineIndex

instance : DecidableRel segLe := fun a b => Nat.decLe a.lineIndex b.lineIndex

instance : IsTotal AudioSegment segLe := ⟨fun a b => Nat.le_total a.lineIndex b.lineIndex⟩

instance : IsTrans AudioSegment segLe := ⟨fun _ _ _ h h2 => Nat.le_trans h h2⟩

/-- The sort `[...segments].sort((a, b) => a.lineIndex - b.lineIndex)` from
`createConcatFile`.  ECMAScript specifies `Array.prototype.sort` as a
stable sort, so it is modelled as insertion sort by the same key:
elements with equal `lineIndex` keep their input order. -/
def sortSegments (segments : List AudioSegment) : List AudioSegment :=
  List.insertionSort segLe segments

/-- One entry of the concat file: `` file '${segment.filePath}' `` (code
point 39 is the apostrophe). -/
def concatEntry (seg : AudioSegment) : String :=
  "file " ++ String.singleton (Char.ofNat 39) ++ seg.filePath ++ String.singleton (Char.ofNat 39)

/-- The reference-list content written by `createConcatFile`: the sorted
segments mapped to entries and joined with newlines. -/
def concatFileContent (segments : List AudioSegment) : String :=
  String.intercalate "\n" ((sortSegments segments).map concatEntry)

/-- JavaScript `path.join(a, b)` for the literal segments used by the backend. -/
def pathJoin (a b : String) : String :=
  a ++ "/" ++ b

/-- The paths a `stitchAudioSegments(scriptId, segments)` run computes,
as `(outputPath, concatFilePath)`:
`outputPath = path.join(outputDir, 'audio', scriptId + '.mp3')` and, via
`tempDir = path.join(outputDir, 'temp')` handed to `createConcatFile`,
`concatFilePath = path.join(tempDir, 'concat_list.txt')`. -/
def stitchPaths (outputDir scriptId : String) : String × String :=
  let audioDir := pathJoin outputDir "audio"
  let outputPath := pathJoin audioDir (scriptId ++ ".mp3")
  let tempDir := pathJoin outputDir "temp"
  let concatFilePath := pathJoin tempDir "concat_list.txt"
  (outputPath, concatFilePath)

/-! ## The TTS retry wrapper (`generateAudioSegmentsWithRetry`) -/

/-- The observable behaviour of one `generateAudioSegmentsWithRetry`
call: how many batch attempts ran, which backoff sleeps happened (in
order, in milliseconds), and the outcome.  A failure carries the attempt
count interpolated into `TTS generation failed after ${maxRetries + 1}
attempts: ${lastError?.message}` together with that last message. -/
structure RetryResult where
  attemptsMade : Nat
  sleepsMs : List Nat
  outcome : Except (Nat × String) (List AudioSegment)
  deriving Repr

/-- The `for (attempt = 0; attempt <= maxRetries; attempt++)` loop.
`gen k` is the outcome of the `k`-th `generateAudioSegments` batch call;
`remaining` counts the iterations left after the current one
(`maxRetries - attempt`).  On failure with attempts remaining the source
sleeps `2 ** attempt * 1000` ms and retries the full batch. -/
def retryGo (gen : Nat → Except String (List AudioSegment)) :
    Nat → Nat → Nat × List Nat × Except String (List AudioSegment)
  | remaining, attempt =>
    match gen attempt with
    | .ok segs => (1, [], .ok segs)
    | .error e =>
      match remaining with
      | 0 => (1, [], .error e)
      | r + 1 =>
        let rest := retryGo gen r (attempt + 1)
        (rest.1 + 1, 2 ^ attempt * 1000 :: rest.2.1, rest.2.2)

/-- The wrapper `generateAudioSegmentsWithRetry(scriptId, lines, maxRetries)`
(`backend/src/services/tts.ts`), with the per-attempt batch outcome
passed in as `gen`.  When every attempt fails, the loop falls through and
throws an error interpolating `maxRetries + 1` and the last error. -/
def generateAudioSegmentsWithRetry (gen : Nat → Except String (List AudioSegment))
    (maxRetries : Nat) : RetryResult :=
  match retryGo gen maxRetries 0 with
  | (made, sleeps, .ok segs) => ⟨made, sleeps, .ok segs⟩
  | (made, sleeps, .error e) => ⟨made, sleeps, .error (maxRetries + 1, e)⟩

/-! ## The orchestrator (`generatePodcast` in `podcastOrchestrator.ts`)

The orchestrator is `async` and does filesystem writes between stages.
It is embedded by passing the outcome of each stage's delegate (`Except`
values), recording artifact writes as data (`savedScript`,
`savedMetadata`) instead of writing files, and recording every
`onProgress(stage)` invocation in `events`.  Timestamps (wall-clock
strings in the source) are outside the embedding and are dropped; the
`fs.mkdir`/`fs.writeFile` calls of `saveScript`/`saveMetadata` are
modelled as always succeeding. -/

/-- A fetched article (`Article`), fields used by the orchestrator. -/
structure Article where
  title : String
  url : String
  cleanedText : String
  wordCount : Nat
  fetchedAt : String
  deriving Repr, DecidableEq

/-- A generated script (`Script`), fields used by the orchestrator. -/
structure Script where
  id : String
  lines : List ScriptLine
  totalWords : Nat
  estimatedDuration : Nat
  deriving Repr, DecidableEq

/-- The result of `stitchAudioSegments`. -/
structure StitchResult where
  filePath : String
  durationSeconds : Nat
  fileSizeBytes : Nat
  deriving Repr, DecidableEq

/-- The enumeration `GenerationStageName` from the backend types. -/
inductive StageName where
  | fetch : StageName
  | generate_script : StageName
  | synthesize_audio : StageName
  | stitch_audio : StageName
  deriving Repr, DecidableEq

/-- The enumeration `GenerationStageStatus` from the backend types. -/
inductive StageStatus where
  | pending : StageStatus
  | in_progress : StageStatus
  | completed : StageStatus
  | failed : StageStatus
  deriving Repr, DecidableEq

/-- A `GenerationStage` record: name, status, optional error text.  The
optional `startedAt`/`completedAt` timestamps are dropped (wall-clock). -/
structure GenerationStage where
  name : StageName
  status : StageStatus
  error : Option String
  deriving Repr, DecidableEq

/-- The helper `createStage(name)`: a fresh pending stage. -/
def createStage (n : StageName) : GenerationStage :=
  ⟨n, .pending, none⟩

/-- The generation-metadata record (`GenerationMetadata`), reduced to the
fields the claims are about: the run id and the per-stage records stored
under `pipeline.stages`. -/
structure GenerationMetadata where
  id : String
  stages : List GenerationStage
  deriving Repr, DecidableEq

/-- The `Podcast` result entity, reduced to representative fields. -/
structure Podcast where
  id : String
  audioFilePath : String
  durationSeconds : Nat
  deriving Repr, DecidableEq

/-- Everything observable about one `generatePodcast` run: the final
stage list, the sequence of `onProgress` payloads, which artifacts were
persisted, and the returned value or propagated exception. -/
structure PipelineRun where
  stages : List GenerationStage
  events : List GenerationStage
  savedScript : Option String
  savedMetadata : Option GenerationMetadata
  result : Except String Podcast

/-- The orchestrator `generatePodcast` (`podcastOrchestrator.ts`).  The four delegates are
the stage bodies: `fetchArticle(input, type)`, `generateScript(article)`,
`generateAudioSegmentsWithRetry(script.id, script.lines)` and
`stitchAudioSegments(script.id, segments)`.  Each stage is marked
in-progress (notify), its delegate runs, and it is marked completed
(notify); the `catch` block marks the in-progress stage failed with the
error text, notifies, and re-throws, so each failure branch below carries
the stages marked so far, the later stages still pending, and the same
error as result.  `saveScript` runs after stage 2, `saveMetadata` only
after stage 4. -/
def generatePodcast (fetchArticle : Except String Article)
    (generateScript : Article → Except String Script)
    (synthesize : Script → Except String (List AudioSegment))
    (stitch : String → List AudioSegment → Except String StitchResult) : PipelineRun :=
  let p1 := createStage .generate_script
  let p2 := createStage .synthesize_audio
  let p3 := createStage .stitch_audio
  let s0 : GenerationStage := ⟨.fetch, .in_progress, none⟩
  match fetchArticle with
  | .error e =>
    let s0f : GenerationStage := ⟨.fetch, .failed, some e⟩
    ⟨[s0f, p1, p2, p3], [s0, s0f], none, none, .error e⟩
  | .ok article =>
    let s0c : GenerationStage := ⟨.fetch, .completed, none⟩
    let s1 : GenerationStage := ⟨.generate_script, .in_progress, none⟩
    match generateScript article with
    | .error e =>
      let s1f : GenerationStage := ⟨.generate_script, .failed, some e⟩
      ⟨[s0c, s1f, p2, p3], [s0, s0c, s1, s1f], none, none, .error e⟩
    | .ok script =>
      let s1c : GenerationStage := ⟨.generate_script, .completed, none⟩
      let s2 : GenerationStage := ⟨.synthesize_audio, .in_progress, none⟩
      match synthesize script with
      | .error e =>
        let s2f : GenerationStage := ⟨.synthesize_audio, .failed, some e⟩
        ⟨[s0c, s1c, s2f, p3], [s0, s0c, s1, s1c, s2, s2f], some script.id, none, .error e⟩
      | .ok segments =>
        let s2c : GenerationStage := ⟨.synthesize_audio, .completed, none⟩
        let s3 : GenerationStage := ⟨.stitch_audio, .in_progress, none⟩
        match stitch script.id segments with
        | .error e =>
          let s3f : GenerationStage := ⟨.stitch_audio, .failed, some e⟩
          ⟨[s0c, s1c, s2c, s3f], [s0, s0c, s1, s1c, s2, s2c, s3, s3f],
            some script.id, none, .error e⟩
        | .ok audioResult =>
          let s3c : GenerationStage := ⟨.stitch_audio, .completed, none⟩
          let finalStages := [s0c, s1c, s2c, s3c]
          let podcast : Podcast := ⟨script.id, audioResult.filePath, audioResult.durationSeconds⟩
          let metadata : GenerationMetadata := ⟨script.id, finalStages⟩
          ⟨finalStages, [s0, s0c, s1, s1c, s2, s2c, s3, s3c],
            some script.id, some metadata, .ok podcast⟩

/-! ## Predicates used to state the claims -/

/-- Adjacent non-decrease of section positions: what check 4 verifies. -/
def sectionLe (a b : ScriptLine) : Prop :=
  sectionPos a ≤ sectionPos b

instance : DecidableRel sectionLe :=
  fun a b => inferInstanceAs (Decidable (sectionPos a ≤ sectionPos b))

/-- List `l` contains `n` consecutive lines all spoken by `spk`. -/
def sameSpeakerRun (spk : String) (n : Nat) (l : List ScriptLine) : Prop :=
  ∃ pre mid post : List ScriptLine,
    l = pre ++ mid ++ post ∧ mid.length = n ∧ ∀ x ∈ mid, x.speaker = spk

/-- The first `n` lines of `l` exist and are all spoken by `spk`. -/
def headRun (spk : String) (n : Nat) (l : List ScriptLine) : Prop :=
  n ≤ l.length ∧ ∀ x ∈ l.take n, x.speaker = spk

/-- One when the character list is empty or starts with whitespace (the
cases where the JS split gains a leading empty field), else `0`. -/
def leadCount : List Char → Nat
  | [] => 1
  | c :: _ => if isJsWs c then 1 else 0

/-- One when the character list ends with whitespace (the case where the
JS split gains a trailing empty field), else `0`. -/
def trailCount (cs : List Char) : Nat :=
  match cs.getLast? with
  | none => 0
  | some c => if isJsWs c then 1 else 0

/-- String `s` is nonempty, starts with a non-whitespace character
(`leadCount = 0`) and does not end in whitespace (`trailCount = 0`):
exactly the strings on which the JS split-field count equals the
whitespace-delimited token count. -/
def trimmedNonempty (s : String) : Prop :=
  leadCount s.data = 0 ∧ trailCount s.data = 0

instance (s : String) : Decidable (trimmedNonempty s) :=
  inferInstanceAs (Decidable (leadCount s.data = 0 ∧ trailCount s.data = 0))

/-- Replace a line's text, keeping the other fields. -/
def setText (l : ScriptLine) (t : String) : ScriptLine :=
  ⟨l.index, l.speaker, t, l.sectionTag⟩

/-- All `lineIndex` keys in the list are pairwise distinct. -/
def segKeysDistinct (l : List AudioSegment) : Prop :=
  l.Pairwise (fun a b => a.lineIndex ≠ b.lineIndex)

instance (l : List AudioSegment) : Decidable (segKeysDistinct l) :=
  inferInstanceAs (Decidable (l.Pairwise fun a b : AudioSegment => a.lineIndex ≠ b.lineIndex))

/-! ## Concrete inputs for witnesses and counterexamples -/

/-- Build a line: index, speaker, section tag, text. -/
def mkLine (i : Nat) (spk sec txt : String) : ScriptLine :=
  ⟨i, spk, txt, sec⟩

/-- A well-formed 9-line script: short, otherwise unobjectionable. -/
def nineLines : List ScriptLine :=
  [mkLine 1 "Nishi" "greeting" "a", mkLine 2 "Shyam" "greeting" "a",
   mkLine 3 "Nishi" "explanation" "a", mkLine 4 "Shyam" "explanation" "a",
   mkLine 5 "Nishi" "clarification" "a", mkLine 6 "Shyam" "clarification" "a",
   mkLine 7 "Nishi" "qna" "a", mkLine 8 "Shyam" "qna" "a",
   mkLine 9 "Nishi" "signoff" "a"]

/-- Twelve lines passing checks 1-4, with lines 1-6 all spoken by Nishi. -/
def c1Lines : List ScriptLine :=
  [mkLine 1 "Nishi" "greeting" "a", mkLine 2 "Nishi" "greeting" "a",
   mkLine 3 "Nishi" "explanation" "a", mkLine 4 "Nishi" "explanation" "a",
   mkLine 5 "Nishi" "clarification" "a", mkLine 6 "Nishi" "clarification" "a",
   mkLine 7 "Shyam" "qna" "a", mkLine 8 "Nishi" "qna" "a",
   mkLine 9 "Shyam" "qna" "a", mkLine 10 "Nishi" "qna" "a",
   mkLine 11 "Shyam" "signoff" "a", mkLine 12 "Nishi" "signoff" "a"]

/-- A valid 10-line script whose every text carries a leading space. -/
def c4SpacedScript : List ScriptLine :=
  [mkLine 1 "Nishi" "greeting" " hi", mkLine 2 "Shyam" "greeting" " hi",
   mkLine 3 "Nishi" "explanation" " hi", mkLine 4 "Shyam" "explanation" " hi",
   mkLine 5 "Nishi" "clarification" " hi", mkLine 6 "Shyam" "clarification" " hi",
   mkLine 7 "Nishi" "qna" " hi", mkLine 8 "Shyam" "qna" " hi",
   mkLine 9 "Nishi" "signoff" " hi", mkLine 10 "Shyam" "signoff" " hi"]

/-- The same script with trimmed texts. -/
def c4TrimScript : List ScriptLine :=
  [mkLine 1 "Nishi" "greeting" "hi", mkLine 2 "Shyam" "greeting" "hi",
   mkLine 3 "Nishi" "explanation" "hi", mkLine 4 "Shyam" "explanation" "hi",
   mkLine 5 "Nishi" "clarification" "hi", mkLine 6 "Shyam" "clarification" "hi",
   mkLine 7 "Nishi" "qna" "hi", mkLine 8 "Shyam" "qna" "hi",
   mkLine 9 "Nishi" "signoff" "hi", mkLine 10 "Shyam" "signoff" "hi"]

/-- Lines 1-5 of a script that then falls back to an earlier section. -/
def c6p : List ScriptLine :=
  [mkLine 1 "Nishi" "greeting" "a", mkLine 2 "Shyam" "explanation" "a",
   mkLine 3 "Nishi" "clarification" "a", mkLine 4 "Shyam" "qna" "a"]

/-- Line 5: the last line of the monotone prefix. -/
def c6x : ScriptLine := mkLine 5 "Nishi" "signoff" "a"

/-- Line 6: a greeting-tagged line after a signoff-tagged one. -/
def c6y : ScriptLine := mkLine 6 "Shyam" "greeting" "a"

/-- Lines 7-10, arbitrary tail. -/
def c6q : List ScriptLine :=
  [mkLine 7 "Nishi" "qna" "a", mkLine 8 "Shyam" "signoff" "a",
   mkLine 9 "Nishi" "signoff" "a", mkLine 10 "Shyam" "signoff" "a"]

/-- A 1001-character text. -/
def longText : String :=
  String.mk (List.replicate 1001 'x')

/-- Line 10 of `c8Script`: its text has 1001 characters. -/
def c8Line : ScriptLine :=
  mkLine 10 "Shyam" "signoff" longText

/-- A structurally valid 10-line script ending in `c8Line`. -/
def c8Script : List ScriptLine :=
  [mkLine 1 "Nishi" "greeting" "a", mkLine 2 "Shyam" "greeting" "a",
   mkLine 3 "Nishi" "explanation" "a", mkLine 4 "Shyam" "explanation" "a",
   mkLine 5 "Nishi" "clarification" "a", mkLine 6 "Shyam" "clarification" "a",
   mkLine 7 "Nishi" "qna" "a", mkLine 8 "Shyam" "qna" "a",
   mkLine 9 "Nishi" "signoff" "a", c8Line]

/-- Two distinct segments sharing `lineIndex = 1`. -/
def segDupA : AudioSegment := ⟨1, "Nishi", "a.mp3", 900, "mp3", "t0"⟩

/-- See `segDupA`. -/
def segDupB : AudioSegment := ⟨1, "Shyam", "b.mp3", 800, "mp3", "t1"⟩

/-- Segments with line indices 1, 2, 3. -/
def segW1 : AudioSegment := ⟨1, "Nishi", "a.mp3", 900, "mp3", "t0"⟩

/-- See `segW1`. -/
def segW2 : AudioSegment := ⟨2, "Shyam", "b.mp3", 800, "mp3", "t1"⟩

/-- See `segW1`. -/
def segW3 : AudioSegment := ⟨3, "Nishi", "c.mp3", 700, "mp3", "t2"⟩

/-- A batch generator that always fails. -/
def failGen : Nat → Except String (List AudioSegment) :=
  fun _ => .error "boom"

/-- A fetched article for orchestrator witnesses. -/
def wArticle : Article := ⟨"Title", "url", "body", 3, "t0"⟩

/-- A generated script for orchestrator witnesses. -/
def wScript : Script := ⟨"runid", [], 0, 0⟩

/-- A script-generation delegate that succeeds. -/
def gOk : Article → Except String Script := fun _ => .ok wScript

/-- A synthesis delegate that succeeds with an empty batch. -/
def syOk : Script → Except String (List AudioSegment) := fun _ => .ok []

/-- A synthesis delegate that fails. -/
def syFail : Script → Except String (List AudioSegment) := fun _ => .error "tts down"

/-- A stitch delegate that succeeds. -/
def stOk : String → List AudioSegment → Except String StitchResult :=
  fun _ _ => .ok ⟨"out.mp3", 150, 1000⟩

/-! ## Claim C5: fixed check order, fail-fast, `< 10` lines always "too short" -/

/-- C5: `validateScript` applies its five checks in the fixed order
(minimum length, section completeness, speaker identity, section
monotonicity, speaker-run limit) with fail-fast sequencing — it equals
the `Except`-sequenced composition of the five standalone checks — and in
particular every input with fewer than 10 lines is rejected with the
"too short" violation, whatever other violations it also contains. -/
theorem claim_C5_fail_fast :
    (∀ lines : List ScriptLine, validateScript lines = runChecksInOrder lines) ∧
    (∀ lines : List ScriptLine, lines.length < 10 →
      validateScript lines = Except.error ValidationError.tooShort) := by
  constructor
  · intro lines
    unfold validateScript runChecksInOrder checkMinLength checkSectionsPresent
    unfold checkSpeakers checkSectionOrder
    by_cases h : lines.length < 10
    · simp [h, Except.bind]
    · rw [if_neg h, if_neg h]
      cases hm : firstMissingSection lines requiredSections <;>
        cases hs : firstInvalidSpeaker lines <;>
          cases ho : checkSectionOrderFrom (-1) lines <;>
            simp [Except.bind]
  · intro lines h
    unfold validateScript
    rw [if_pos h]

/-- Witness for C5: the concrete well-formed 9-line script is rejected
as "too short". -/
theorem claim_C5_witness : validateScript nineLines = Except.error ValidationError.tooShort :=
  claim_C5_fail_fast.2 nineLines (by decide)

/-! ## Claim C2: the retry law -/

/-- When every batch attempt fails, the loop of
`generateAudioSegmentsWithRetry` runs all `remaining + 1` iterations,
sleeping `2 ^ attempt * 1000` ms after each failed attempt except the
last, and ends with the last attempt's error. -/
theorem retryGo_all_fail (gen : Nat → Except String (List AudioSegment))
    (h : ∀ k, ∃ e, gen k = Except.error e) :
    ∀ r a : Nat, ∃ e, retryGo gen r a =
      (r + 1, (List.range r).map (fun j => 2 ^ (a + j) * 1000), Except.error e) := by
  intro r
  induction r with
  | zero =>
    intro a
    obtain ⟨e, he⟩ := h a
    exact ⟨e, by simp [retryGo, he]⟩
  | succ r ih =>
    intro a
    obtain ⟨e0, he0⟩ := h a
    obtain ⟨e, hrest⟩ := ih (a + 1)
    refine ⟨e, ?_⟩
    simp only [retryGo, he0, hrest]
    rw [List.range_succ_eq_map, List.map_cons, List.map_map]
    have h1 : 2 ^ a * 1000 = 2 ^ (a + 0) * 1000 := by rw [Nat.add_zero]
    have h2 : List.map (fun j => 2 ^ (a + 1 + j) * 1000) (List.range r) =
        List.map ((fun j => 2 ^ (a + j) * 1000) ∘ Nat.succ) (List.range r) :=
      List.map_congr_left fun j _ => by
        show 2 ^ (a + 1 + j) * 1000 = 2 ^ (a + (j + 1)) * 1000
        rw [Nat.add_right_comm a 1 j, Nat.add_assoc]
    rw [h1, h2]

/-- C2: `generateAudioSegmentsWithRetry` with `maxRetries = N` whose
every batch attempt fails makes exactly `N + 1` attempts, sleeps
`2 ^ attempt * 1000` ms after each failed attempt but the last
(1000 ms, 2000 ms, 4000 ms, …), and raises an error interpolating the
total attempt count `N + 1`.  Instantiating `N = 0` (as the witness
does) gives failure after exactly one attempt. -/
theorem claim_C2_retry_law :
    ∀ (gen : Nat → Except String (List AudioSegment)) (N : Nat),
    (∀ k, ∃ e, gen k = Except.error e) →
    (generateAudioSegmentsWithRetry gen N).attemptsMade = N + 1 ∧
    (generateAudioSegmentsWithRetry gen N).sleepsMs =
      (List.range N).map (fun attempt => 2 ^ attempt * 1000) ∧
    ∃ e, (generateAudioSegmentsWithRetry gen N).outcome = Except.error (N + 1, e) := by
  intro gen N h
  obtain ⟨e, hr⟩ := retryGo_all_fail gen h N 0
  have hdef : generateAudioSegmentsWithRetry gen N =
      ⟨N + 1, (List.range N).map (fun j => 2 ^ (0 + j) * 1000), Except.error (N + 1, e)⟩ := by
    unfold generateAudioSegmentsWithRetry
    rw [hr]
  rw [hdef]
  refine ⟨rfl, ?_, e, rfl⟩
  simp

/-- Witness for C2: with the always-failing generator, `maxRetries = 2`
gives 3 attempts, sleeps `[1000, 2000]` and a failure naming 3 attempts;
`maxRetries = 0` gives exactly 1 attempt. -/
theorem claim_C2_witness :
    (generateAudioSegmentsWithRetry failGen 2).attemptsMade = 3 ∧
    (generateAudioSegmentsWithRetry failGen 2).sleepsMs = [1000, 2000] ∧
    (∃ e, (generateAudioSegmentsWithRetry failGen 2).outcome = Except.error (3, e)) ∧
    (generateAudioSegmentsWithRetry failGen 0).attemptsMade = 1 := by
  have h2 := claim_C2_retry_law failGen 2 (fun _ => ⟨"boom", rfl⟩)
  have h0 := claim_C2_retry_law failGen 0 (fun _ => ⟨"boom", rfl⟩)
  refine ⟨h2.1, ?_, h2.2.2, h0.1⟩
  rw [h2.2.1]
  rfl

/-! ## Claim C9: the stitcher's scratch path is NOT run-keyed (corrected) -/

/-- Counterexample to C9 as stated: two stitch invocations with distinct
run identifiers write their reference list to the same path. -/
theorem claim_C9_counterexample :
    (stitchPaths "output" "runA").2 = (stitchPaths "output" "runB").2 ∧
    "runA" ≠ "runB" := by
  exact ⟨rfl, by decide⟩

/-- C9 amended: the scratch reference list of every stitch run is
written at the one fixed path `outputDir/temp/concat_list.txt`,
independent of the run identifier — concurrent runs contend for it —
while the final MP3 output path is keyed by the run identifier and is
distinct for distinct identifiers. -/
theorem claim_C9_fixed_scratch_path :
    ∀ outputDir id1 id2 : String,
    (stitchPaths outputDir id1).2 = (stitchPaths outputDir id2).2 ∧
    (stitchPaths outputDir id1).2 = outputDir ++ "/temp/concat_list.txt" ∧
    (id1 ≠ id2 → (stitchPaths outputDir id1).1 ≠ (stitchPaths outputDir id2).1) := by
  intro od id1 id2
  refine ⟨rfl, ?_, ?_⟩
  · show od ++ "/" ++ "temp" ++ "/" ++ "concat_list.txt" = od ++ "/temp/concat_list.txt"
    apply String.ext
    simp [String.data_append]
  · intro hne heq
    apply hne
    have hd : ((od ++ "/" ++ "audio" ++ "/").data ++ (id1 ++ ".mp3").data) =
        ((od ++ "/" ++ "audio" ++ "/").data ++ (id2 ++ ".mp3").data) := by
      have h0 := congrArg String.data heq
      simpa [stitchPaths, pathJoin, String.data_append, List.append_assoc] using h0
    have h1 : (id1 ++ ".mp3").data = (id2 ++ ".mp3").data :=
      List.append_cancel_left hd
    have h2 : id1.data = id2.data := by
      have := h1
      simp only [String.data_append] at this
      exact List.append_cancel_right this
    exact String.ext h2

/-- Witness for C9 amended: at a concrete output directory and the
distinct run ids `"a"` and `"b"`, the scratch paths coincide and the
output paths differ. -/
theorem claim_C9_witness :
    (stitchPaths "out" "a").2 = (stitchPaths "out" "b").2 ∧
    (stitchPaths "out" "a").1 ≠ (stitchPaths "out" "b").1 := by
  have h := claim_C9_fixed_scratch_path "out" "a" "b"
  exact ⟨h.1, h.2.2 (by decide)⟩

/-! ## Claim C3: stitch order invariance (corrected) -/

/-- Counterexample to C3 as stated: two distinct segments sharing
`lineIndex = 1`.  `Array.prototype.sort` is stable, so the two orders of
this two-element set produce different reference lists. -/
theorem claim_C3_counterexample :
    [segDupA, segDupB].Perm [segDupB, segDupA] ∧
    ([segDupA, segDupB] : List AudioSegment) ≠ [] ∧
    concatFileContent [segDupA, segDupB] ≠ concatFileContent [segDupB, segDupA] :=
  ⟨List.Perm.swap segDupB segDupA [], by decide, by decide⟩

/-- C3 amended: for every non-empty segment list whose `lineIndex` keys
are pairwise distinct (as is the case for the one-segment-per-line sets
the pipeline produces), every permutation yields the identical reference
list: the order depends only on `lineIndex`, never on input order. -/
theorem claim_C3_order_invariant :
    ∀ l1 l2 : List AudioSegment,
    l1 ≠ [] → l1.Perm l2 → segKeysDistinct l1 →
    concatFileContent l1 = concatFileContent l2 := by
  intro l1 l2 _ hperm hkeys
  suffices hs : sortSegments l1 = sortSegments l2 by
    unfold concatFileContent
    rw [hs]
  haveI : IsAntisymm AudioSegment (fun a b => a.lineIndex < b.lineIndex) :=
    ⟨fun a b h1 h2 => absurd (Nat.lt_trans h1 h2) (Nat.lt_irrefl _)⟩
  have p1 : (sortSegments l1).Perm l1 := List.perm_insertionSort segLe l1
  have p2 : (sortSegments l2).Perm l2 := List.perm_insertionSort segLe l2
  have hk1 : (sortSegments l1).Pairwise (fun a b => a.lineIndex ≠ b.lineIndex) :=
    (List.Perm.pairwise_iff (fun h => Ne.symm h) p1).mpr hkeys
  have hk2 : (sortSegments l2).Pairwise (fun a b => a.lineIndex ≠ b.lineIndex) :=
    (List.Perm.pairwise_iff (fun h => Ne.symm h) p2).mpr
      ((List.Perm.pairwise_iff (fun h => Ne.symm h) hperm).mp hkeys)
  have hs1 : (sortSegments l1).Pairwise segLe := List.sorted_insertionSort segLe l1
  have hs2 : (sortSegments l2).Pairwise segLe := List.sorted_insertionSort segLe l2
  have st1 : List.Sorted (fun a b : AudioSegment => a.lineIndex < b.lineIndex) (sortSegments l1) :=
    (hs1.and hk1).imp fun h => Nat.lt_of_le_of_ne h.1 h.2
  have st2 : List.Sorted (fun a b : AudioSegment => a.lineIndex < b.lineIndex) (sortSegments l2) :=
    (hs2.and hk2).imp fun h => Nat.lt_of_le_of_ne h.1 h.2
  exact List.eq_of_perm_of_sorted (p1.trans (hperm.trans p2.symm)) st1 st2

/-- Witness for C3 amended: segments supplied in `lineIndex` order
`[3, 1, 2]` produce the same reference list as in order `[1, 2, 3]`. -/
theorem claim_C3_witness :
    concatFileContent [segW3, segW1, segW2] = concatFileContent [segW1, segW2, segW3] :=
  claim_C3_order_invariant [segW3, segW1, segW2] [segW1, segW2, segW3]
    (by decide) (by decide) (by decide)

/-! ## Claim C8: the validator does not bound text length (corrected) -/

/-- Counterexample to C8 as stated: a structurally valid 10-line script
whose last line carries a 1001-character text is accepted. -/
theorem claim_C8_counterexample :
    validateScript c8Script = Except.ok () ∧
    c8Script.getLast? = some c8Line ∧ 1000 < c8Line.text.length := by
  refine ⟨rfl, rfl, ?_⟩
  show 1000 < longText.length
  have h : longText.length = 1001 := by
    show (List.replicate 1001 'x').length = 1001
    rw [List.length_replicate]
  omega

/-- Updating the text keeps the speaker. -/
theorem setText_speaker (l : ScriptLine) (t : String) : (setText l t).speaker = l.speaker := rfl

/-- Updating the text keeps the section tag. -/
theorem setText_sectionTag (l : ScriptLine) (t : String) : (setText l t).sectionTag = l.sectionTag := rfl

/-- Updating the text keeps the index. -/
theorem setText_index (l : ScriptLine) (t : String) : (setText l t).index = l.index := rfl

/-- Updating the text keeps the section position. -/
theorem sectionPos_setText (l : ScriptLine) (t : String) :
    sectionPos (setText l t) = sectionPos l := rfl

/-- Check 2 ignores texts. -/
theorem firstMissingSection_map_setText (f : ScriptLine → String) (lines : List ScriptLine) :
    ∀ ss, firstMissingSection (lines.map fun l => setText l (f l)) ss =
      firstMissingSection lines ss := by
  intro ss
  induction ss with
  | nil => rfl
  | cons s ss ih =>
    have hany : (lines.map fun l => setText l (f l)).any (fun l => l.sectionTag = s) =
        lines.any (fun l => l.sectionTag = s) := by
      rw [List.any_map]
      rfl
    simp only [firstMissingSection, hany, ih]

/-- Check 3 ignores texts. -/
theorem firstInvalidSpeaker_map_setText (f : ScriptLine → String) :
    ∀ lines : List ScriptLine,
      firstInvalidSpeaker (lines.map fun l => setText l (f l)) = firstInvalidSpeaker lines := by
  intro lines
  induction lines with
  | nil => rfl
  | cons l rest ih =>
    simp only [List.map_cons, firstInvalidSpeaker, setText_speaker, ih]

/-- Check 4 ignores texts. -/
theorem checkSectionOrderFrom_map_setText (f : ScriptLine → String) :
    ∀ (lines : List ScriptLine) (last : Int),
      checkSectionOrderFrom last (lines.map fun l => setText l (f l)) =
        checkSectionOrderFrom last lines := by
  intro lines
  induction lines with
  | nil => intro last; rfl
  | cons l rest ih =>
    intro last
    simp only [List.map_cons, checkSectionOrderFrom, sectionPos_setText, setText_index, ih]

/-- Check 5 ignores texts. -/
theorem checkConsecutiveFrom_map_setText (f : ScriptLine → String) :
    ∀ (lines : List ScriptLine) (lastSpk : String) (count pos : Nat),
      checkConsecutiveFrom lastSpk count pos (lines.map fun l => setText l (f l)) =
        checkConsecutiveFrom lastSpk count pos lines := by
  intro lines
  induction lines with
  | nil => intros; rfl
  | cons l rest ih =>
    intro lastSpk count pos
    simp only [List.map_cons, checkConsecutiveFrom, setText_speaker, ih]

/-- Check 5's entry ignores texts. -/
theorem checkConsecutive_map_setText (f : ScriptLine → String) (lines : List ScriptLine) :
    checkConsecutive (lines.map fun l => setText l (f l)) = checkConsecutive lines := by
  cases lines with
  | nil => rfl
  | cons l rest =>
    simp only [List.map_cons, checkConsecutive, setText_speaker, checkConsecutiveFrom_map_setText]

/-- C8 amended: the validator's verdict never depends on the line texts
— replacing every text by anything (in particular by texts longer than
1000 characters) leaves the result unchanged, so accepted scripts are
not bounded in text length; the 1000-character limit appears only in the
generation prompt, not in `validateScript`. -/
theorem claim_C8_text_irrelevant :
    ∀ (f : ScriptLine → String) (lines : List ScriptLine),
      validateScript (lines.map fun l => setText l (f l)) = validateScript lines := by
  intro f lines
  unfold validateScript
  rw [List.length_map, firstMissingSection_map_setText f lines requiredSections,
    firstInvalidSpeaker_map_setText f lines, checkSectionOrderFrom_map_setText f lines (-1),
    checkConsecutive_map_setText f lines]

/-! ## Claim C4: estimated duration vs token count (corrected) -/

/-- The JS split always yields at least one field. -/
theorem splitWsCore_ne_nil : ∀ cs : List Char, splitWsCore cs ≠ [] := by
  intro cs
  induction cs with
  | nil => simp [splitWsCore]
  | cons c cs ih =>
    cases hc : isJsWs c with
    | true =>
      cases cs with
      | nil => simp [splitWsCore, hc]
      | cons c2 cs2 =>
        cases h2 : isJsWs c2 with
        | true => simpa [splitWsCore, hc, h2] using ih
        | false => simp [splitWsCore, hc, h2]
    | false =>
      cases hsp : splitWsCore cs with
      | nil => exact absurd hsp ih
      | cons f fs => simp [splitWsCore, hc, hsp]

/-- One-step unfolding of `splitWsCore` on a cons. -/
theorem splitWsCore_cons_eq (c : Char) (cs : List Char) :
    splitWsCore (c :: cs) =
      if isJsWs c then
        match cs with
        | [] => [[], []]
        | c2 :: _ => if isJsWs c2 then splitWsCore cs else [] :: splitWsCore cs
      else
        match splitWsCore cs with
        | [] => [[c]]
        | f :: fs => (c :: f) :: fs := rfl

/-- Field count of the JS split, in both boundary states: it exceeds the
token count by one leading empty field (when the string is empty or
starts with whitespace) and one trailing empty field (when it ends with
whitespace). -/
theorem splitWsCore_length_eq : ∀ cs : List Char,
    (splitWsCore cs).length = tokenCountAux true cs + leadCount cs + trailCount cs ∧
    (splitWsCore cs).length = tokenCountAux false cs + 1 + trailCount cs := by
  intro cs
  induction cs with
  | nil => exact ⟨rfl, rfl⟩
  | cons c cs ih =>
    cases hc : isJsWs c with
    | true =>
      cases cs with
      | nil =>
        constructor <;> simp [splitWsCore, tokenCountAux, leadCount, trailCount, hc]
      | cons c2 cs2 =>
        have htrail : trailCount (c :: c2 :: cs2) = trailCount (c2 :: cs2) := by
          simp [trailCount]
        have htokA : tokenCountAux true (c :: c2 :: cs2) = tokenCountAux true (c2 :: cs2) := by
          simp [tokenCountAux, hc]
        have htokB : tokenCountAux false (c :: c2 :: cs2) = tokenCountAux true (c2 :: cs2) := by
          simp [tokenCountAux, hc]
        have hleadc : leadCount (c :: c2 :: cs2) = 1 := by
          simp [leadCount, hc]
        obtain ⟨ih1, ih2⟩ := ih
        cases h2 : isJsWs c2 with
        | true =>
          have hsplit : (splitWsCore (c :: c2 :: cs2)).length = (splitWsCore (c2 :: cs2)).length := by
            simp [splitWsCore, hc, h2]
          have hlead2 : leadCount (c2 :: cs2) = 1 := by
            simp [leadCount, h2]
          constructor <;> omega
        | false =>
          have hsplit : (splitWsCore (c :: c2 :: cs2)).length =
              (splitWsCore (c2 :: cs2)).length + 1 := by
            simp [splitWsCore, hc, h2]
          have hlead2 : leadCount (c2 :: cs2) = 0 := by
            simp [leadCount, h2]
          constructor <;> omega
    | false =>
      cases cs with
      | nil =>
        constructor <;> simp [splitWsCore, tokenCountAux, leadCount, trailCount, hc]
      | cons c2 cs2 =>
        obtain ⟨f, fs, hsp⟩ : ∃ f fs, splitWsCore (c2 :: cs2) = f :: fs := by
          cases hsp : splitWsCore (c2 :: cs2) with
          | nil => exact absurd hsp (splitWsCore_ne_nil (c2 :: cs2))
          | cons f fs => exact ⟨f, fs, rfl⟩
        have hstep : splitWsCore (c :: c2 :: cs2) = (c :: f) :: fs := by
          conv_lhs => rw [splitWsCore_cons_eq]
          rw [hc, hsp]
          simp
        have hsplit : (splitWsCore (c :: c2 :: cs2)).length = (splitWsCore (c2 :: cs2)).length := by
          rw [hstep, hsp]
          simp
        have htokA : tokenCountAux true (c :: c2 :: cs2) =
            1 + tokenCountAux false (c2 :: cs2) := by
          simp [tokenCountAux, hc]
        have htokB : tokenCountAux false (c :: c2 :: cs2) =
            tokenCountAux false (c2 :: cs2) := by
          simp [tokenCountAux, hc]
        have hleadc : leadCount (c :: c2 :: cs2) = 0 := by
          simp [leadCount, hc]
        have htrail : trailCount (c :: c2 :: cs2) = trailCount (c2 :: cs2) := by
          simp [trailCount]
        obtain ⟨ih1, ih2⟩ := ih
        constructor <;> omega

/-- On nonempty strings with no leading or trailing whitespace the JS
split-field count is exactly the whitespace-delimited token count. -/
theorem splitWsCore_length_of_trimmed (s : String) (h : trimmedNonempty s) :
    (splitWsCore s.data).length = tokenCount s := by
  obtain ⟨hl, ht⟩ := h
  have h1 := (splitWsCore_length_eq s.data).1
  unfold tokenCount
  omega

/-- Summing pointwise-equal per-line counts gives equal totals. -/
theorem foldl_add_congr : ∀ (lines : List ScriptLine) (a : Nat) (f g : ScriptLine → Nat),
    (∀ l ∈ lines, f l = g l) →
    lines.foldl (fun s l => s + f l) a = lines.foldl (fun s l => s + g l) a := by
  intro lines
  induction lines with
  | nil => intros; rfl
  | cons l rest ih =>
    intro a f g h
    simp only [List.foldl_cons]
    rw [h l (by simp)]
    exact ih _ f g fun x hx => h x (by simp [hx])

/-- Counterexample to C4 as stated: a valid 10-line script whose texts
each carry a leading space.  The JS `split(/\s+/)` counts the leading
empty field, so the code computes duration 8 where the claim's
token-count formula gives 4. -/
theorem claim_C4_counterexample :
    validateScript c4SpacedScript = Except.ok () ∧
    (calculateDuration c4SpacedScript).2 ≠ roundWordsToSeconds (tokenTotal c4SpacedScript) :=
  ⟨rfl, by decide⟩

/-- C4 amended: for every line list accepted by the validator whose line
texts are nonempty with no leading or trailing whitespace, the computed
`estimatedDuration` equals `round(totalWords / 150 * 60)` with
`totalWords` the whitespace-delimited token count summed across all line
texts.  (In general the code's per-line count is the JS split-field
count, which exceeds the token count by one for each leading- and each
trailing-whitespace run and counts an empty text as one word.) -/
theorem claim_C4_duration_formula :
    ∀ lines : List ScriptLine,
    validateScript lines = Except.ok () →
    (∀ l ∈ lines, trimmedNonempty l.text) →
    (calculateDuration lines).2 = roundWordsToSeconds (tokenTotal lines) := by
  intro lines _ ht
  show roundWordsToSeconds
      (lines.foldl (fun sum line => sum + (splitWsCore line.text.data).length) 0) =
    roundWordsToSeconds (tokenTotal lines)
  unfold tokenTotal
  congr 1
  exact foldl_add_congr lines 0 _ _ fun l hl => splitWsCore_length_of_trimmed l.text (ht l hl)

/-- Witness for C4 amended: on the trimmed script the code's duration
agrees with the token-count formula. -/
theorem claim_C4_witness :
    validateScript c4TrimScript = Except.ok () ∧
    (calculateDuration c4TrimScript).2 = roundWordsToSeconds (tokenTotal c4TrimScript) :=
  ⟨rfl, claim_C4_duration_formula c4TrimScript rfl (by decide)⟩

/-! ## Claim C6: section monotonicity rejects at the first decrease -/

/-- JavaScript `indexOf` never returns less than `-1`. -/
theorem neg_one_le_jsIndexOf : ∀ (l : List String) (s : String), -1 ≤ jsIndexOf l s := by
  intro l s
  induction l with
  | nil => simp [jsIndexOf]
  | cons a rest ih =>
    simp only [jsIndexOf]
    by_cases h : a = s
    · rw [if_pos h]; omega
    · rw [if_neg h]
      by_cases h2 : jsIndexOf rest s = -1
      · rw [if_pos h2]
      · rw [if_neg h2]; omega

/-- Section positions are at least `-1`. -/
theorem neg_one_le_sectionPos (l : ScriptLine) : -1 ≤ sectionPos l :=
  neg_one_le_jsIndexOf requiredSections l.sectionTag

/-- One-step unfolding of the check-4 loop. -/
theorem checkSectionOrderFrom_cons (last : Int) (l : ScriptLine) (rest : List ScriptLine) :
    checkSectionOrderFrom last (l :: rest) =
      if sectionPos l < last then Except.error (.sectionsOutOfOrder l.index)
      else checkSectionOrderFrom (sectionPos l) rest := rfl

/-- The check-4 loop accepts adjacent-monotone lists whose head is at or
above the running bound. -/
theorem checkSectionOrderFrom_ok_of_chain :
    ∀ (lines : List ScriptLine) (last : Int),
      List.Chain' sectionLe lines →
      (∀ h ∈ lines.head?, last ≤ sectionPos h) →
      checkSectionOrderFrom last lines = Except.ok () := by
  intro lines
  induction lines with
  | nil => intros; rfl
  | cons a rest ih =>
    intro last hchain hhead
    have ha : last ≤ sectionPos a := hhead a rfl
    rw [checkSectionOrderFrom_cons, if_neg (not_lt.mpr ha)]
    exact ih (sectionPos a) (List.chain'_cons'.mp hchain).2
      fun h hh => (List.chain'_cons'.mp hchain).1 h hh

/-- The check-4 loop, run over a monotone prefix `p ++ [x]` followed by a
line `y` whose section position drops, errors exactly at `y`, naming
`y.index`. -/
theorem checkSectionOrderFrom_first_violation :
    ∀ (p : List ScriptLine) (x y : ScriptLine) (q : List ScriptLine) (last : Int),
      List.Chain' sectionLe (p ++ [x]) →
      (∀ h ∈ (p ++ [x]).head?, last ≤ sectionPos h) →
      sectionPos y < sectionPos x →
      checkSectionOrderFrom last (p ++ x :: y :: q) =
        Except.error (.sectionsOutOfOrder y.index) := by
  intro p
  induction p with
  | nil =>
    intro x y q last hchain hhead hdec
    have hx : last ≤ sectionPos x := hhead x rfl
    show checkSectionOrderFrom last (x :: y :: q) = _
    rw [checkSectionOrderFrom_cons, if_neg (not_lt.mpr hx),
      checkSectionOrderFrom_cons, if_pos hdec]
  | cons a p ih =>
    intro x y q last hchain hhead hdec
    have ha : last ≤ sectionPos a := hhead a rfl
    show checkSectionOrderFrom last (a :: (p ++ x :: y :: q)) = _
    rw [checkSectionOrderFrom_cons, if_neg (not_lt.mpr ha)]
    exact ih x y q (sectionPos a) (List.chain'_cons'.mp hchain).2
      (fun h hh => (List.chain'_cons'.mp hchain).1 h hh) hdec

/-- Check 2 passes when every required section occurs. -/
theorem firstMissingSection_eq_none (lines : List ScriptLine) :
    ∀ ss, (∀ s ∈ ss, ∃ l ∈ lines, l.sectionTag = s) →
      firstMissingSection lines ss = none := by
  intro ss
  induction ss with
  | nil => intro _; rfl
  | cons s ss ih =>
    intro h
    obtain ⟨l, hl, hls⟩ := h s (by simp)
    have hany : lines.any (fun l => l.sectionTag = s) = true :=
      List.any_eq_true.mpr ⟨l, hl, by simp [hls]⟩
    simp only [firstMissingSection, hany, if_true]
    exact ih fun t ht => h t (by simp [ht])

/-- Check 3 passes when every speaker is Nishi or Shyam. -/
theorem firstInvalidSpeaker_eq_none :
    ∀ lines : List ScriptLine,
      (∀ l ∈ lines, l.speaker = "Nishi" ∨ l.speaker = "Shyam") →
      firstInvalidSpeaker lines = none := by
  intro lines
  induction lines with
  | nil => intro _; rfl
  | cons l rest ih =>
    intro h
    have hcond : ¬(l.speaker ≠ "Nishi" ∧ l.speaker ≠ "Shyam") := by
      rcases h l (by simp) with h1 | h1 <;> simp [h1]
    simp only [firstInvalidSpeaker, if_neg hcond]
    exact ih fun x hx => h x (by simp [hx])

/-- C6: a list with at least 10 lines, all 5 sections present and only
valid speakers, whose section positions are adjacent-monotone through
`p ++ [x]` and then drop at `y`, is rejected by the validator with the
section-order violation at that first offending line, naming its
index. -/
theorem claim_C6_section_order_first :
    ∀ (p : List ScriptLine) (x y : ScriptLine) (q : List ScriptLine),
    10 ≤ (p ++ x :: y :: q).length →
    (∀ s ∈ requiredSections, ∃ l ∈ p ++ x :: y :: q, l.sectionTag = s) →
    (∀ l ∈ p ++ x :: y :: q, l.speaker = "Nishi" ∨ l.speaker = "Shyam") →
    List.Chain' sectionLe (p ++ [x]) →
    sectionPos y < sectionPos x →
    validateScript (p ++ x :: y :: q) =
      Except.error (ValidationError.sectionsOutOfOrder y.index) := by
  intro p x y q h10 hsec hspk hchain hdec
  have horder : checkSectionOrderFrom (-1) (p ++ x :: y :: q) =
      Except.error (.sectionsOutOfOrder y.index) :=
    checkSectionOrderFrom_first_violation p x y q (-1) hchain
      (fun h _ => neg_one_le_sectionPos h) hdec
  unfold validateScript
  rw [if_neg (by omega), firstMissingSection_eq_none _ requiredSections hsec,
    firstInvalidSpeaker_eq_none _ hspk, horder]

/-- Witness for C6: the concrete 10-line script whose line 6 returns to
the greeting section after a signoff-tagged line 5 rejects with the
section-order violation at line 6, though all 5 tags are present. -/
theorem claim_C6_witness :
    validateScript (c6p ++ c6x :: c6y :: c6q) =
      Except.error (ValidationError.sectionsOutOfOrder 6) :=
  claim_C6_section_order_first c6p c6x c6y c6q (by decide) (by decide) (by decide)
    (List.Chain.cons (by decide) (List.Chain.cons (by decide)
      (List.Chain.cons (by decide) (List.Chain.cons (by decide) List.Chain.nil))))
    (by decide)

/-! ## Claim C1: the speaker-run limit -/

/-- One-step unfolding of the check-5 loop. -/
theorem checkConsecutiveFrom_cons (lastSpeaker : String) (count pos : Nat)
    (l : ScriptLine) (rest : List ScriptLine) :
    checkConsecutiveFrom lastSpeaker count pos (l :: rest) =
      if l.speaker = lastSpeaker then
        if count + 1 > 5 then Except.error (.tooManyConsecutive lastSpeaker (pos + 1))
        else checkConsecutiveFrom lastSpeaker (count + 1) (pos + 1) rest
      else checkConsecutiveFrom l.speaker 1 (pos + 1) rest := rfl

/-- A head run shrinks. -/
theorem headRun_mono {spk : String} {m n : Nat} {l : List ScriptLine} (hmn : m ≤ n) :
    headRun spk n l → headRun spk m l := by
  rintro ⟨hlen, hall⟩
  refine ⟨le_trans hmn hlen, fun x hx => hall x ?_⟩
  have hq : l.take m = (l.take n).take m := by
    rw [List.take_take, Nat.min_eq_left hmn]
  rw [hq] at hx
  exact List.take_subset m (l.take n) hx

/-- No run of positive length fits in the empty list. -/
theorem sameSpeakerRun_nil {spk : String} {n : Nat} (hn : 0 < n) :
    ¬sameSpeakerRun spk n [] := by
  rintro ⟨pre, mid, post, heq, hlen, -⟩
  have h0 := congrArg List.length heq
  rw [List.length_append, List.length_append, List.length_nil] at h0
  omega

/-- A run in `a :: l` either starts at the head or lies in `l`. -/
theorem sameSpeakerRun_cons {spk : String} {n : Nat} {a : ScriptLine} {l : List ScriptLine} :
    sameSpeakerRun spk n (a :: l) → headRun spk n (a :: l) ∨ sameSpeakerRun spk n l := by
  rintro ⟨pre, mid, post, heq, hlen, hall⟩
  cases pre with
  | nil =>
    left
    simp only [List.nil_append] at heq
    constructor
    · rw [heq, List.length_append, ← hlen]; omega
    · intro x hx
      apply hall
      rw [heq, ← hlen, List.take_left] at hx
      exact hx
  | cons b pre =>
    right
    rw [List.cons_append, List.cons_append] at heq
    injection heq with h1 h2
    exact ⟨pre, mid, post, h2, hlen, hall⟩

/-- Head runs of successor length split off the head. -/
theorem headRun_cons_succ {spk : String} {n : Nat} {a : ScriptLine} {l : List ScriptLine} :
    headRun spk (n + 1) (a :: l) ↔ a.speaker = spk ∧ headRun spk n l := by
  constructor
  · rintro ⟨hlen, hall⟩
    have ha : a.speaker = spk := hall a (by simp [List.take_succ_cons])
    refine ⟨ha, by simpa using hlen, fun x hx => hall x ?_⟩
    rw [List.take_succ_cons]
    exact List.mem_cons_of_mem a hx
  · rintro ⟨ha, hlen, hall⟩
    refine ⟨by simpa using Nat.succ_le_succ hlen, fun x hx => ?_⟩
    rw [List.take_succ_cons] at hx
    rcases List.mem_cons.mp hx with rfl | hx
    · exact ha
    · exact hall x hx

/-- Completeness of check 5's loop: when it accepts, no extension of the
current run reaches six, and no six-run exists in the remainder. -/
theorem consecutiveFrom_ok_no_run :
    ∀ (rest : List ScriptLine) (lastSpk : String) (count pos : Nat),
      1 ≤ count → count ≤ 5 →
      checkConsecutiveFrom lastSpk count pos rest = Except.ok () →
      ¬headRun lastSpk (6 - count) rest ∧ ∀ spk, ¬sameSpeakerRun spk 6 rest := by
  intro rest
  induction rest with
  | nil =>
    intro lastSpk count pos h1 h5 _
    constructor
    · rintro ⟨hlen, -⟩
      simp at hlen
      omega
    · intro spk
      exact sameSpeakerRun_nil (by omega)
  | cons l rest ih =>
    intro lastSpk count pos h1 h5 hok
    rw [checkConsecutiveFrom_cons] at hok
    by_cases hsp : l.speaker = lastSpk
    · rw [if_pos hsp] at hok
      by_cases hcount : count + 1 > 5
      · rw [if_pos hcount] at hok
        exact absurd hok (by simp)
      · rw [if_neg hcount] at hok
        obtain ⟨hhr, hnr⟩ := ih lastSpk (count + 1) (pos + 1) (by omega) (by omega) hok
        constructor
        · intro hh
          have h6 : 6 - count = (6 - (count + 1)) + 1 := by omega
          rw [h6] at hh
          exact hhr (headRun_cons_succ.mp hh).2
        · intro spk hrun
          rcases sameSpeakerRun_cons hrun with hh | ht
          · rw [show (6 : Nat) = 5 + 1 from rfl] at hh
            obtain ⟨hls, hr5⟩ := headRun_cons_succ.mp hh
            have hspk : spk = lastSpk := by rw [← hls, hsp]
            subst hspk
            exact hhr (headRun_mono (by omega) hr5)
          · exact hnr spk ht
    · rw [if_neg hsp] at hok
      obtain ⟨hhr, hnr⟩ := ih l.speaker 1 (pos + 1) le_rfl (by omega) hok
      constructor
      · intro hh
        have h6 : 6 - count = (6 - count - 1) + 1 := by omega
        rw [h6] at hh
        exact hsp (headRun_cons_succ.mp hh).1
      · intro spk hrun
        rcases sameSpeakerRun_cons hrun with hh | ht
        · rw [show (6 : Nat) = 5 + 1 from rfl] at hh
          obtain ⟨hls, hr5⟩ := headRun_cons_succ.mp hh
          subst hls
          exact hhr hr5
        · exact hnr spk ht

/-- Entry form of completeness: acceptance by check 5 excludes every
six-line same-speaker run. -/
theorem checkConsecutive_ok_no_run :
    ∀ lines : List ScriptLine, checkConsecutive lines = Except.ok () →
      ∀ spk, ¬sameSpeakerRun spk 6 lines := by
  intro lines hok spk
  cases lines with
  | nil => exact sameSpeakerRun_nil (by omega)
  | cons l rest =>
    have hok' : checkConsecutiveFrom l.speaker 1 1 rest = Except.ok () := hok
    obtain ⟨hhr, hnr⟩ := consecutiveFrom_ok_no_run rest l.speaker 1 1 le_rfl (by omega) hok'
    intro hrun
    rcases sameSpeakerRun_cons hrun with hh | ht
    · rw [show (6 : Nat) = 5 + 1 from rfl] at hh
      obtain ⟨hls, hr5⟩ := headRun_cons_succ.mp hh
      subst hls
      exact hhr hr5
    · exact hnr spk ht

/-- The check-5 loop only ever raises `tooManyConsecutive`. -/
theorem consecutiveFrom_error_shape :
    ∀ (rest : List ScriptLine) (lastSpk : String) (count pos : Nat) (e : ValidationError),
      checkConsecutiveFrom lastSpk count pos rest = Except.error e →
      ∃ spk k, e = .tooManyConsecutive spk k := by
  intro rest
  induction rest with
  | nil => intro _ _ _ e h; exact absurd h (by simp [checkConsecutiveFrom])
  | cons l rest ih =>
    intro lastSpk count pos e h
    rw [checkConsecutiveFrom_cons] at h
    by_cases hsp : l.speaker = lastSpk
    · rw [if_pos hsp] at h
      by_cases hcount : count + 1 > 5
      · rw [if_pos hcount] at h
        injection h with h
        exact ⟨lastSpk, pos + 1, h.symm⟩
      · rw [if_neg hcount] at h
        exact ih _ _ _ _ h
    · rw [if_neg hsp] at h
      exact ih _ _ _ _ h

/-- Check 5 only ever raises `tooManyConsecutive`. -/
theorem checkConsecutive_error_shape :
    ∀ (lines : List ScriptLine) (e : ValidationError),
      checkConsecutive lines = Except.error e →
      ∃ spk k, e = .tooManyConsecutive spk k := by
  intro lines e h
  cases lines with
  | nil => exact absurd h (by simp [checkConsecutive])
  | cons l rest => exact consecutiveFrom_error_shape rest l.speaker 1 1 e h

/-- Soundness of check 5's loop: the line number it names is the sixth
line of a six-line same-speaker run of the full list (`done` is the
already-scanned prefix, whose last `count` lines carry `lastSpk`). -/
theorem consecutiveFrom_sound :
    ∀ (rest done : List ScriptLine) (lastSpk spk : String) (count k : Nat),
      1 ≤ count → count ≤ done.length →
      (∀ x ∈ done.drop (done.length - count), x.speaker = lastSpk) →
      checkConsecutiveFrom lastSpk count done.length rest =
        Except.error (.tooManyConsecutive spk k) →
      ∃ i, k = i + 6 ∧ i + 6 ≤ (done ++ rest).length ∧
        ∀ x ∈ ((done ++ rest).drop i).take 6, x.speaker = spk := by
  intro rest
  induction rest with
  | nil =>
    intro done lastSpk spk count k _ _ _ h
    exact absurd h (by simp [checkConsecutiveFrom])
  | cons l rest ih =>
    intro done lastSpk spk count k h1 hcd hhist herr
    rw [checkConsecutiveFrom_cons] at herr
    by_cases hsp : l.speaker = lastSpk
    · rw [if_pos hsp] at herr
      by_cases hcount : count + 1 > 5
      · rw [if_pos hcount] at herr
        injection herr with herr
        injection herr with hspk hk
        have h5c : 5 ≤ count := by omega
        have h5d : 5 ≤ done.length := le_trans h5c hcd
        refine ⟨done.length - 5, by omega, ?_, ?_⟩
        · simp [List.length_append]
          omega
        · intro x hx
          have hdrop : (done ++ l :: rest).drop (done.length - 5) =
              done.drop (done.length - 5) ++ l :: rest :=
            List.drop_append_of_le_length (by omega)
          have hlen5 : (done.drop (done.length - 5)).length = 5 := by
            rw [List.length_drop]
            omega
          have hA : (done.drop (done.length - 5)).take 6 = done.drop (done.length - 5) :=
            List.take_of_length_le (by omega)
          have hB : 6 - (done.drop (done.length - 5)).length = 1 := by
            rw [hlen5]
          rw [hdrop, List.take_append_eq_append_take, hA, hB, List.take_succ_cons,
            List.take_zero] at hx
          rcases List.mem_append.mp hx with hxA | hxl
          · have hsub : done.drop (done.length - 5) =
                (done.drop (done.length - count)).drop (count - 5) := by
              rw [List.drop_drop]
              congr 1
              omega
            rw [hsub] at hxA
            have hxin : x ∈ done.drop (done.length - count) :=
              List.drop_subset _ _ hxA
            rw [← hspk]
            exact hhist x hxin
          · have hxeq : x = l := by simpa using hxl
            subst hxeq
            rw [← hspk]
            exact hsp
      · rw [if_neg hcount] at herr
        have hlen1 : (done ++ [l]).length = done.length + 1 := by simp
        have herr' : checkConsecutiveFrom lastSpk (count + 1) (done ++ [l]).length rest =
            Except.error (.tooManyConsecutive spk k) := by
          rw [hlen1]
          exact herr
        have hhist' : ∀ x ∈ (done ++ [l]).drop ((done ++ [l]).length - (count + 1)),
            x.speaker = lastSpk := by
          intro x hx
          rw [hlen1] at hx
          have heq : done.length + 1 - (count + 1) = done.length - count := by omega
          rw [heq, List.drop_append_of_le_length (by omega)] at hx
          rcases List.mem_append.mp hx with hxA | hxl
          · exact hhist x hxA
          · have hxeq : x = l := by simpa using hxl
            rw [hxeq]
            exact hsp
        obtain ⟨i, hk, hle, hall⟩ := ih (done ++ [l]) lastSpk spk (count + 1) k
          (by omega) (by rw [hlen1]; omega) hhist' herr'
        have hli : (done ++ [l]) ++ rest = done ++ l :: rest := by simp
        rw [hli] at hle hall
        exact ⟨i, hk, hle, hall⟩
    · rw [if_neg hsp] at herr
      have hlen1 : (done ++ [l]).length = done.length + 1 := by simp
      have herr' : checkConsecutiveFrom l.speaker 1 (done ++ [l]).length rest =
          Except.error (.tooManyConsecutive spk k) := by
        rw [hlen1]
        exact herr
      have hhist' : ∀ x ∈ (done ++ [l]).drop ((done ++ [l]).length - 1),
          x.speaker = l.speaker := by
        intro x hx
        rw [hlen1] at hx
        have heq : done.length + 1 - 1 = done.length := by omega
        rw [heq, List.drop_append_of_le_length (le_refl done.length)] at hx
        rcases List.mem_append.mp hx with hxA | hxl
        · rw [List.drop_length] at hxA
          exact absurd hxA (List.not_mem_nil x)
        · have hxeq : x = l := by simpa using hxl
          rw [hxeq]
      obtain ⟨i, hk, hle, hall⟩ := ih (done ++ [l]) l.speaker spk 1 k le_rfl
        (by rw [hlen1]; omega) hhist' herr'
      have hli : (done ++ [l]) ++ rest = done ++ l :: rest := by simp
      rw [hli] at hle hall
      exact ⟨i, hk, hle, hall⟩

/-- Entry form of soundness: when check 5 errors naming line `k`, then
`k = i + 6` for the 0-based start `i` of a six-line same-speaker run. -/
theorem checkConsecutive_sound :
    ∀ (lines : List ScriptLine) (spk : String) (k : Nat),
      checkConsecutive lines = Except.error (.tooManyConsecutive spk k) →
      ∃ i, k = i + 6 ∧ i + 6 ≤ lines.length ∧
        ∀ x ∈ (lines.drop i).take 6, x.speaker = spk := by
  intro lines spk k h
  cases lines with
  | nil => exact absurd h (by simp [checkConsecutive])
  | cons l rest =>
    have h' : checkConsecutiveFrom l.speaker 1 ([l] : List ScriptLine).length rest =
        Except.error (.tooManyConsecutive spk k) := h
    have hist : ∀ x ∈ ([l] : List ScriptLine).drop (([l] : List ScriptLine).length - 1),
        x.speaker = l.speaker := by
      intro x hx
      have hxeq : x = l := by simpa using hx
      rw [hxeq]
    obtain ⟨i, hk, hle, hall⟩ :=
      consecutiveFrom_sound rest [l] l.speaker spk 1 k le_rfl (by simp) hist h'
    have hli : ([l] : List ScriptLine) ++ rest = l :: rest := by simp
    rw [hli] at hle hall
    exact ⟨i, hk, hle, hall⟩

/-- C1: every line list passing the first four checks that contains a
run of more than 5 consecutive lines by one speaker is rejected with the
"too many consecutive lines" violation; the line number named is
`i + 6`, the (1-based) sixth line of the offending run starting at
0-based position `i` — exactly as in the spec's example, where lines 1-6
by one speaker are cited at line 6. -/
theorem claim_C1_speaker_run_limit :
    ∀ lines : List ScriptLine,
    10 ≤ lines.length →
    (∀ s ∈ requiredSections, ∃ l ∈ lines, l.sectionTag = s) →
    (∀ l ∈ lines, l.speaker = "Nishi" ∨ l.speaker = "Shyam") →
    List.Chain' sectionLe lines →
    (∃ spk, sameSpeakerRun spk 6 lines) →
    ∃ spk i, validateScript lines =
        Except.error (ValidationError.tooManyConsecutive spk (i + 6)) ∧
      i + 6 ≤ lines.length ∧ ∀ x ∈ (lines.drop i).take 6, x.speaker = spk := by
  intro lines h10 hsec hspk hchain hrun
  have hval : validateScript lines = checkConsecutive lines := by
    unfold validateScript
    rw [if_neg (by omega), firstMissingSection_eq_none _ requiredSections hsec,
      firstInvalidSpeaker_eq_none _ hspk,
      checkSectionOrderFrom_ok_of_chain lines (-1) hchain fun h _ => neg_one_le_sectionPos h]
  obtain ⟨spk0, hrun0⟩ := hrun
  cases hcc : checkConsecutive lines with
  | ok u =>
    cases u
    exact absurd hrun0 (checkConsecutive_ok_no_run lines hcc spk0)
  | error e =>
    obtain ⟨spk, k, rfl⟩ := checkConsecutive_error_shape lines e hcc
    obtain ⟨i, hk, hle, hall⟩ := checkConsecutive_sound lines spk k hcc
    subst hk
    exact ⟨spk, i, by rw [hval, hcc], hle, hall⟩

/-- Witness for C1: the 12-line script whose lines 1-6 are all spoken by
Nishi and which passes the first four checks rejects with the
"too many consecutive lines" violation at a line of the run. -/
theorem claim_C1_witness :
    ∃ spk i, validateScript c1Lines =
        Except.error (ValidationError.tooManyConsecutive spk (i + 6)) ∧
      i + 6 ≤ c1Lines.length ∧ ∀ x ∈ (c1Lines.drop i).take 6, x.speaker = spk :=
  claim_C1_speaker_run_limit c1Lines (by decide) (by decide) (by decide)
    (by
      unfold c1Lines
      repeat first
        | exact List.Chain.nil
        | refine List.Chain.cons (by decide) ?_)
    ⟨"Nishi", [], c1Lines.take 6, c1Lines.drop 6,
      by rw [List.nil_append, List.take_append_drop], by decide, by decide⟩

/-! ## Claim C7: a stage failure aborts the run -/

/-- C7: whenever a stage delegate of `generatePodcast` throws, the
orchestrator marks exactly that stage failed with the error text
captured, notifies the progress callback of that failure (it is the last
event), executes no further stage — the later stages stay pending — and
propagates the same exception unchanged.  One conjunct per stage. -/
theorem claim_C7_failure_aborts :
    ∀ (f : Except String Article) (g : Article → Except String Script)
      (sy : Script → Except String (List AudioSegment))
      (st : String → List AudioSegment → Except String StitchResult),
    (∀ e, f = Except.error e →
      (generatePodcast f g sy st).stages =
        [⟨.fetch, .failed, some e⟩, createStage .generate_script,
         createStage .synthesize_audio, createStage .stitch_audio] ∧
      (generatePodcast f g sy st).events.getLast? = some ⟨.fetch, .failed, some e⟩ ∧
      (generatePodcast f g sy st).result = Except.error e) ∧
    (∀ a e, f = Except.ok a → g a = Except.error e →
      (generatePodcast f g sy st).stages =
        [⟨.fetch, .completed, none⟩, ⟨.generate_script, .failed, some e⟩,
         createStage .synthesize_audio, createStage .stitch_audio] ∧
      (generatePodcast f g sy st).events.getLast? =
        some ⟨.generate_script, .failed, some e⟩ ∧
      (generatePodcast f g sy st).result = Except.error e) ∧
    (∀ a s e, f = Except.ok a → g a = Except.ok s → sy s = Except.error e →
      (generatePodcast f g sy st).stages =
        [⟨.fetch, .completed, none⟩, ⟨.generate_script, .completed, none⟩,
         ⟨.synthesize_audio, .failed, some e⟩, createStage .stitch_audio] ∧
      (generatePodcast f g sy st).events.getLast? =
        some ⟨.synthesize_audio, .failed, some e⟩ ∧
      (generatePodcast f g sy st).result = Except.error e) ∧
    (∀ a s segs e, f = Except.ok a → g a = Except.ok s → sy s = Except.ok segs →
      st s.id segs = Except.error e →
      (generatePodcast f g sy st).stages =
        [⟨.fetch, .completed, none⟩, ⟨.generate_script, .completed, none⟩,
         ⟨.synthesize_audio, .completed, none⟩, ⟨.stitch_audio, .failed, some e⟩] ∧
      (generatePodcast f g sy st).events.getLast? =
        some ⟨.stitch_audio, .failed, some e⟩ ∧
      (generatePodcast f g sy st).result = Except.error e) := by
  intro f g sy st
  refine ⟨?_, ?_, ?_, ?_⟩
  · intro e hf
    subst hf
    exact ⟨rfl, rfl, rfl⟩
  · intro a e hf hg
    subst hf
    simp [generatePodcast, hg]
  · intro a s e hf hg hsy
    subst hf
    simp [generatePodcast, hg, hsy]
  · intro a s segs e hf hg hsy hst
    subst hf
    simp [generatePodcast, hg, hsy, hst]

/-- Witness for C7: with a failing synthesis delegate, stages 1-2 are
completed, stage 3 failed with the error text, stage 4 pending, and the
error propagates. -/
theorem claim_C7_witness :
    (generatePodcast (Except.ok wArticle) gOk syFail stOk).stages =
      [⟨.fetch, .completed, none⟩, ⟨.generate_script, .completed, none⟩,
       ⟨.synthesize_audio, .failed, some "tts down"⟩, createStage .stitch_audio] ∧
    (generatePodcast (Except.ok wArticle) gOk syFail stOk).events.getLast? =
      some ⟨.synthesize_audio, .failed, some "tts down"⟩ ∧
    (generatePodcast (Except.ok wArticle) gOk syFail stOk).result =
      Except.error "tts down" :=
  (claim_C7_failure_aborts (Except.ok wArticle) gOk syFail stOk).2.2.1
    wArticle wScript "tts down" rfl rfl rfl

/-! ## Claim C10: metadata is persisted only on full success -/

/-- C10: `generatePodcast` writes the generation-metadata record only
after all four stages completed: a failed run re-raises the error with
no metadata write, and whenever metadata is written the run returned a
podcast and every recorded stage is `completed`. -/
theorem claim_C10_metadata_only_on_success :
    ∀ (f : Except String Article) (g : Article → Except String Script)
      (sy : Script → Except String (List AudioSegment))
      (st : String → List AudioSegment → Except String StitchResult),
    (∀ e, (generatePodcast f g sy st).result = Except.error e →
      (generatePodcast f g sy st).savedMetadata = none) ∧
    (∀ m, (generatePodcast f g sy st).savedMetadata = some m →
      (∃ p, (generatePodcast f g sy st).result = Except.ok p) ∧
      ∀ s ∈ m.stages, s.status = StageStatus.completed) := by
  intro f g sy st
  cases f with
  | error e0 => exact ⟨fun _ _ => rfl, fun m hm => by simp [generatePodcast] at hm⟩
  | ok a =>
    cases hg : g a with
    | error e0 =>
      refine ⟨fun _ _ => ?_, fun m hm => ?_⟩
      · simp [generatePodcast, hg]
      · simp [generatePodcast, hg] at hm
    | ok s =>
      cases hsy : sy s with
      | error e0 =>
        refine ⟨fun _ _ => ?_, fun m hm => ?_⟩
        · simp [generatePodcast, hg, hsy]
        · simp [generatePodcast, hg, hsy] at hm
      | ok segs =>
        cases hst : st s.id segs with
        | error e0 =>
          refine ⟨fun _ _ => ?_, fun m hm => ?_⟩
          · simp [generatePodcast, hg, hsy, hst]
          · simp [generatePodcast, hg, hsy, hst] at hm
        | ok audio =>
          refine ⟨fun e he => ?_, fun m hm => ?_⟩
          · simp [generatePodcast, hg, hsy, hst] at he
          · refine ⟨⟨⟨s.id, audio.filePath, audio.durationSeconds⟩, ?_⟩, ?_⟩
            · simp [generatePodcast, hg, hsy, hst]
            · have hsaved : (generatePodcast (Except.ok a) g sy st).savedMetadata =
                  some ⟨s.id,
                    [⟨.fetch, .completed, none⟩, ⟨.generate_script, .completed, none⟩,
                     ⟨.synthesize_audio, .completed, none⟩,
                     ⟨.stitch_audio, .completed, none⟩]⟩ := by
                simp [generatePodcast, hg, hsy, hst]
              rw [hsaved] at hm
              injection hm with hm
              subst hm
              intro x hx
              simp at hx
              rcases hx with rfl | rfl | rfl | rfl <;> rfl

/-- Witness for C10: a run whose fetch fails persists no metadata; a
fully successful run persists metadata whose every stage is completed. -/
theorem claim_C10_witness :
    (generatePodcast (Except.error "down") gOk syFail stOk).savedMetadata = none ∧
    ((∃ p, (generatePodcast (Except.ok wArticle) gOk syOk stOk).result = Except.ok p) ∧
      ∀ s ∈ (⟨"runid",
        [⟨.fetch, .completed, none⟩, ⟨.generate_script, .completed, none⟩,
         ⟨.synthesize_audio, .completed, none⟩, ⟨.stitch_audio, .completed, none⟩]⟩ :
          GenerationMetadata).stages, s.status = StageStatus.completed) :=
  ⟨(claim_C10_metadata_only_on_success (Except.error "down") gOk syFail stOk).1 "down" rfl,
   (claim_C10_metadata_only_on_success (Except.ok wArticle) gOk syOk stOk).2 _ rfl⟩

end Wikicast
